import Mathlib

/-
Verification of the room-membership registry and message-fanout engine of the
rust chat relay (src/src/main.rs).

The shallow embedding models:
  - the `connections` field of `AppState` (a HashMap from room id to a Vec of
    actor addresses) as an association list `Registry`;
  - `Uuid` values as natural numbers (the 128-bit value a parse yields);
  - actor addresses `Addr<WebSocketSession>` as natural numbers;
  - the four methods of `WebSocketSession` (`started`, `stopped`, the
    `Handler<ChatMessage>` handle and the `StreamHandler` handle) as pure
    state-passing functions; the `started`/`stopped` methods receive the
    address of the own actor explicitly (`ctx.address()` in the source);
  - the effects of the stream handler (registry after the call, the `do_send`
    fanout, the `ctx.text` replies on the own connection, and whether the
    handler initiated a close) as an explicit `StreamEffects` record;
  - `websocket_handler` as a function from parsed query parameters to
    `Except`, mirroring the `ErrorBadRequest` early returns;
  - the external library functions `String::from_utf8` (rust std) and
    `Uuid::parse_str` (uuid crate) as executable Lean functions.
-/

abbrev Uuid := Nat
abbrev Addr := Nat

/-- The `connections` map of `AppState`: room id to the Vec of live actor
addresses, modelled as an association list with the HashMap discipline of
unique keys (every operation touches the first matching entry only). -/
abbrev Registry := List (Uuid × List Addr)

/-- `connections.get(&r)`: the entry of room `r`, if present. -/
def lookupRoom : Registry → Uuid → Option (List Addr)
  | [], _ => none
  | (k, l) :: rest, r => if k = r then some l else lookupRoom rest r

/-- The live members of room `r`: the entry of `r`, or empty when absent. -/
def membersOf (reg : Registry) (r : Uuid) : List Addr :=
  (lookupRoom reg r).getD []

/-- `connections.entry(r).or_insert_with(Vec::new).push(a)`: append `a` to the
entry of room `r`, creating the entry when absent. -/
def registerConn : Registry → Uuid → Addr → Registry
  | [], r, a => [(r, [a])]
  | (k, l) :: rest, r, a =>
      if k = r then (k, l ++ [a]) :: rest
      else (k, l) :: registerConn rest r a

/-- `if let Some(users) = connections.get_mut(&r) { users.retain(|x| x != &a) }`:
drop every occurrence of `a` from the entry of room `r`; no-op when the entry
is absent. -/
def deregisterConn : Registry → Uuid → Addr → Registry
  | [], _, _ => []
  | (k, l) :: rest, r, a =>
      if k = r then (k, l.filter (fun b => b != a)) :: rest
      else (k, l) :: deregisterConn rest r a

/-- Models rust std `String::from_utf8` on a byte list: strict UTF-8 decoding
(external to the repository; the source calls it on the payload bytes of a
text frame). Accepts exactly the well-formed sequences: ASCII, two-byte
`C2..DF`, three-byte `E0 A0..BF`, `E1..EC`, `ED 80..9F` (no surrogates),
`EE..EF`, four-byte `F0 90..BF`, `F1..F3`, `F4 80..8F`, each with
continuation bytes `80..BF`. -/
def isUtf8Cont (b : Nat) : Bool := 0x80 ≤ b && b ≤ 0xBF

def utf8DecodeList : List Nat → Option (List Char)
  | [] => some []
  | b :: rest =>
    if b ≤ 0x7F then
      match utf8DecodeList rest with
      | some cs => some (Char.ofNat b :: cs)
      | none => none
    else if 0xC2 ≤ b && b ≤ 0xDF then
      match rest with
      | b1 :: rest2 =>
        if isUtf8Cont b1 then
          match utf8DecodeList rest2 with
          | some cs => some (Char.ofNat ((b - 0xC0) * 0x40 + (b1 - 0x80)) :: cs)
          | none => none
        else none
      | [] => none
    else if 0xE0 ≤ b && b ≤ 0xEF then
      match rest with
      | b1 :: b2 :: rest3 =>
        if (if b = 0xE0 then 0xA0 ≤ b1 && b1 ≤ 0xBF
            else if b = 0xED then 0x80 ≤ b1 && b1 ≤ 0x9F
            else isUtf8Cont b1) && isUtf8Cont b2 then
          match utf8DecodeList rest3 with
          | some cs =>
              some (Char.ofNat ((b - 0xE0) * 0x1000 + (b1 - 0x80) * 0x40 + (b2 - 0x80)) :: cs)
          | none => none
        else none
      | _ => none
    else if 0xF0 ≤ b && b ≤ 0xF4 then
      match rest with
      | b1 :: b2 :: b3 :: rest4 =>
        if (if b = 0xF0 then 0x90 ≤ b1 && b1 ≤ 0xBF
            else if b = 0xF4 then 0x80 ≤ b1 && b1 ≤ 0x8F
            else isUtf8Cont b1) && isUtf8Cont b2 && isUtf8Cont b3 then
          match utf8DecodeList rest4 with
          | some cs =>
              some (Char.ofNat ((b - 0xF0) * 0x40000 + (b1 - 0x80) * 0x1000 +
                (b2 - 0x80) * 0x40 + (b3 - 0x80)) :: cs)
          | none => none
        else none
      | _ => none
    else none

/-- `String::from_utf8(bytes)`, returning the decoded string or failing. -/
def rustStringFromUtf8 (bytes : List Nat) : Option String :=
  (utf8DecodeList bytes).map (fun cs => String.mk cs)

/-- The `ChatMessage` struct: the actor message the fanout loop sends with
`do_send` to every address of the room entry. -/
structure ChatMessage where
  room_id : Uuid
  username : String
  message : String
deriving DecidableEq, Repr

/-- The `WebSocketSession` actor state: the joined room and the display name
(the shared `app_state` is passed explicitly as a `Registry` argument). -/
structure WebSocketSession where
  room_id : Uuid
  username : String
deriving DecidableEq, Repr

/-- The `ws::Message` frame variants reaching the stream handler. The text
variant carries raw payload bytes, which the source re-validates with
`String::from_utf8`. -/
inductive WsMessage where
  | text (bytes : List Nat)
  | binary (bytes : List Nat)
  | ping (bytes : List Nat)
  | pong (bytes : List Nat)
  | close
  | continuation
  | nop
deriving DecidableEq, Repr

/-- The `Result<ws::Message, ws::ProtocolError>` input of the stream handler. -/
inductive WsInbound where
  | ok (m : WsMessage)
  | protocolError
deriving DecidableEq, Repr

/-- The observable effects of one `StreamHandler::handle` call: the
`connections` registry after the call, the `do_send` deliveries (address and
`ChatMessage`), the `ctx.text` replies written to the own connection, and
whether the handler initiated a close or stop of the session. -/
structure StreamEffects where
  connections : Registry
  sends : List (Addr × ChatMessage)
  replies : List String
  closing : Bool
deriving DecidableEq, Repr

namespace WebSocketSession

/-- `Actor::started`: lock `connections`, `entry(room_id).or_insert(vec).push(ctx.address())`. -/
def started (self : WebSocketSession) (selfAddr : Addr) (reg : Registry) : Registry :=
  registerConn reg self.room_id selfAddr

/-- `Actor::stopped`: lock `connections`, `get_mut(room_id)` and retain every
address different from `ctx.address()`. -/
def stopped (self : WebSocketSession) (selfAddr : Addr) (reg : Registry) : Registry :=
  deregisterConn reg self.room_id selfAddr

/-- `Handler<ChatMessage>::handle`: when the message is tagged with the own
room id, write `msg.message` (the bare text) to the own connection with
`ctx.text`; returns the list of frames written. -/
def handleChat (self : WebSocketSession) (msg : ChatMessage) : List String :=
  if msg.room_id = self.room_id then [msg.message] else []

/-- `StreamHandler::handle`: on an `Ok(Text)` frame whose bytes decode as
UTF-8, look up the own room entry and `do_send` a `ChatMessage` to every
address in it (including the own address); on undecodable bytes reply
`"Invalid UTF-8 data received."` on the own connection; every other frame is
ignored. No branch mutates the registry or closes the session. -/
def handleStream (self : WebSocketSession) (reg : Registry) (msg : WsInbound) :
    StreamEffects :=
  match msg with
  | .ok (.text bytes) =>
    match rustStringFromUtf8 bytes with
    | some textString =>
        { connections := reg
          sends :=
            match lookupRoom reg self.room_id with
            | some users =>
                users.map (fun u =>
                  (u, { room_id := self.room_id, username := self.username,
                        message := textString }))
            | none => []
          replies := []
          closing := false }
    | none =>
        { connections := reg, sends := [], replies := ["Invalid UTF-8 data received."],
          closing := false }
  | _ => { connections := reg, sends := [], replies := [], closing := false }

end WebSocketSession

/-- The frames a given connection `b` (running session `recv`) receives out of
one fanout: the deliveries addressed to `b`, each passed through the
`Handler<ChatMessage>` handle of `recv`. -/
def framesTo (sends : List (Addr × ChatMessage)) (b : Addr)
    (recv : WebSocketSession) : List String :=
  ((sends.filter (fun d => d.1 == b)).map (fun d => recv.handleChat d.2)).flatten

/-- The registry invariant of the design: no address occurs in the entries of
two distinct rooms. -/
def regInvariant (reg : Registry) : Prop :=
  ∀ p1 ∈ reg, ∀ p2 ∈ reg, ∀ a ∈ p1.2, a ∈ p2.2 → p1.1 = p2.1

instance (reg : Registry) : Decidable (regInvariant reg) := by
  unfold regInvariant; infer_instance

/-- One hex digit, models the digit handling of `Uuid::parse_str`. -/
def hexDigitVal (c : Char) : Option Nat :=
  if '0' ≤ c ∧ c ≤ '9' then some (c.toNat - '0'.toNat)
  else if 'a' ≤ c ∧ c ≤ 'f' then some (c.toNat - 'a'.toNat + 10)
  else if 'A' ≤ c ∧ c ≤ 'F' then some (c.toNat - 'A'.toNat + 10)
  else none

/-- The value of a hex digit string, failing on any non-hex character. -/
def hexListVal (cs : List Char) : Option Nat :=
  cs.foldl (fun acc c => acc.bind (fun v => (hexDigitVal c).map (fun d => v * 16 + d)))
    (some 0)

/-- Models `Uuid::parse_str` of the uuid crate (external dependency): accepts
the hyphenated `8-4-4-4-12` format and the simple 32-hex-digit format,
yielding the 128-bit value; anything else fails. -/
def uuidParseStr (s : String) : Option Uuid :=
  let cs := s.toList
  if cs.length = 32 then hexListVal cs
  else if cs.length = 36 then
    if cs.get? 8 = some '-' ∧ cs.get? 13 = some '-' ∧ cs.get? 18 = some '-' ∧
        cs.get? 23 = some '-' ∧ (cs.filter (fun c => c != '-')).length = 32 then
      hexListVal (cs.filter (fun c => c != '-'))
    else none
  else none

/-- `query_params.get(k)` on the parsed query string. -/
def getQueryParam : List (String × String) → String → Option String
  | [], _ => none
  | (k, v) :: rest, key => if k = key then some v else getQueryParam rest key

/-- `websocket_handler`: the argument is the outcome of the serde_urlencoded
parse of the query string (`none` models a parse failure). A missing
`roomId` parameter, or one `Uuid::parse_str` rejects, yields the bad-request
error; otherwise a `WebSocketSession` is built with the parsed room id and
the `username` parameter, defaulting to `"guest"`. -/
def websocket_handler (query : Option (List (String × String))) :
    Except String WebSocketSession :=
  match query with
  | none => Except.error "Invalid query string"
  | some params =>
    match (getQueryParam params "roomId").bind uuidParseStr with
    | none => Except.error "Missing or invalid roomId"
    | some rid =>
        Except.ok { room_id := rid,
                    username := (getQueryParam params "username").getD "guest" }

/-- The `Room` struct: persisted room data, with the membership name set
(`HashSet<String>` in the source) modelled as a list. -/
structure Room where
  id : Uuid
  name : String
  creator : String
  users : List String
deriving DecidableEq, Repr

/-- `rooms.insert(k, v)` on the `rooms` HashMap of `AppState`. -/
def insertRoom : List (Uuid × Room) → Uuid → Room → List (Uuid × Room)
  | [], k, v => [(k, v)]
  | (k1, v1) :: rest, k, v =>
      if k1 = k then (k, v) :: rest else (k1, v1) :: insertRoom rest k v

/-- `create_room`: builds a `Room` with a fresh id (`Uuid::new_v4`, passed in
explicitly since it is random), the requested name and creator, and an empty
`users` set (`HashSet::new()`), stores it in the rooms map and returns both. -/
def create_room (rooms : List (Uuid × Room)) (freshId : Uuid)
    (name creator : String) : List (Uuid × Room) × Room :=
  let room : Room := { id := freshId, name := name, creator := creator, users := [] }
  (insertRoom rooms freshId room, room)

/-- Whether `needle` starts `hay`. -/
def startsWithSeq : List Char → List Char → Bool
  | [], _ => true
  | _ :: _, [] => false
  | n :: ns, h :: hs => n == h && startsWithSeq ns hs

/-- Whether `needle` occurs contiguously anywhere in the character list. -/
def occursInSeq (needle : List Char) : List Char → Bool
  | [] => startsWithSeq needle []
  | h :: hs => startsWithSeq needle (h :: hs) || occursInSeq needle hs

/-- Whether the string `needle` occurs as a substring of `hay`. -/
def strOccurs (needle hay : String) : Bool :=
  occursInSeq needle.toList hay.toList

/-- A successful room lookup names an entry of the registry. -/
theorem lookupRoom_mem {reg : Registry} {r : Uuid} {l : List Addr}
    (h : lookupRoom reg r = some l) : (r, l) ∈ reg := by
  induction reg with
  | nil => simp [lookupRoom] at h
  | cons p rest ih =>
    obtain ⟨k, l0⟩ := p
    simp only [lookupRoom] at h
    split at h
    · next hk =>
      cases h
      subst hk
      exact List.mem_cons_self _ _
    · exact List.mem_cons_of_mem _ (ih h)

/-- A live member of a room comes from an entry of the registry. -/
theorem membersOf_entry {reg : Registry} {r : Uuid} {a : Addr}
    (h : a ∈ membersOf reg r) : ∃ l, (r, l) ∈ reg ∧ a ∈ l := by
  unfold membersOf at h
  cases hl : lookupRoom reg r with
  | none => rw [hl] at h; simp at h
  | some l => rw [hl] at h; exact ⟨l, lookupRoom_mem hl, h⟩

/-- The stream handler leaves the connections registry untouched on every
input frame. -/
theorem handleStream_connections (self : WebSocketSession) (reg : Registry)
    (msg : WsInbound) : (WebSocketSession.handleStream self reg msg).connections = reg := by
  cases msg with
  | protocolError => rfl
  | ok m =>
    cases m with
    | text bytes =>
      cases h : rustStringFromUtf8 bytes <;>
        simp [WebSocketSession.handleStream, h]
    | binary bytes => rfl
    | ping bytes => rfl
    | pong bytes => rfl
    | close => rfl
    | continuation => rfl
    | nop => rfl

/-- On a decodable text frame, the fanout sends the tagged `ChatMessage` to
exactly the snapshot of the room entry taken at the call. -/
theorem handleStream_sends_decoded (self : WebSocketSession) (reg : Registry)
    {bytes : List Nat} {text : String} (hdec : rustStringFromUtf8 bytes = some text) :
    (WebSocketSession.handleStream self reg (.ok (.text bytes))).sends =
      (membersOf reg self.room_id).map
        (fun u => (u, ChatMessage.mk self.room_id self.username text)) := by
  cases h : lookupRoom reg self.room_id <;>
    simp [WebSocketSession.handleStream, hdec, membersOf, h]

/-- Every address in an entry of the registry after a register call either was
in an entry with the same room key before, or is the registered address in
the registered room. -/
theorem mem_registerConn {reg : Registry} {r : Uuid} {a0 : Addr}
    {p : Uuid × List Addr} (hp : p ∈ registerConn reg r a0) {b : Addr}
    (hb : b ∈ p.2) :
    (∃ q ∈ reg, q.1 = p.1 ∧ b ∈ q.2) ∨ (b = a0 ∧ p.1 = r) := by
  induction reg with
  | nil =>
    simp [registerConn] at hp
    subst hp
    simp at hb
    right
    exact ⟨hb, rfl⟩
  | cons q0 rest ih =>
    obtain ⟨k, l⟩ := q0
    simp only [registerConn] at hp
    by_cases hk : k = r
    · rw [if_pos hk] at hp
      rcases List.mem_cons.mp hp with h1 | h2
      · subst h1
        rcases List.mem_append.mp hb with hbl | hba
        · exact Or.inl ⟨(k, l), List.mem_cons_self _ _, rfl, hbl⟩
        · simp at hba
          exact Or.inr ⟨hba, hk⟩
      · exact Or.inl ⟨p, List.mem_cons_of_mem _ h2, rfl, hb⟩
    · rw [if_neg hk] at hp
      rcases List.mem_cons.mp hp with h1 | h2
      · subst h1
        exact Or.inl ⟨(k, l), List.mem_cons_self _ _, rfl, hb⟩
      · rcases ih h2 with ⟨q, hq, hq1, hq2⟩ | hr
        · exact Or.inl ⟨q, List.mem_cons_of_mem _ hq, hq1, hq2⟩
        · exact Or.inr hr

/-- Every address in an entry of the registry after a deregister call was in
an entry with the same room key before. -/
theorem mem_deregisterConn {reg : Registry} {r : Uuid} {a0 : Addr}
    {p : Uuid × List Addr} (hp : p ∈ deregisterConn reg r a0) {b : Addr}
    (hb : b ∈ p.2) : ∃ q ∈ reg, q.1 = p.1 ∧ b ∈ q.2 := by
  induction reg with
  | nil => simp [deregisterConn] at hp
  | cons q0 rest ih =>
    obtain ⟨k, l⟩ := q0
    simp only [deregisterConn] at hp
    by_cases hk : k = r
    · rw [if_pos hk] at hp
      rcases List.mem_cons.mp hp with h1 | h2
      · subst h1
        have hbl : b ∈ l := (List.mem_filter.mp hb).1
        exact ⟨(k, l), List.mem_cons_self _ _, rfl, hbl⟩
      · exact ⟨p, List.mem_cons_of_mem _ h2, rfl, hb⟩
    · rw [if_neg hk] at hp
      rcases List.mem_cons.mp hp with h1 | h2
      · subst h1
        exact ⟨(k, l), List.mem_cons_self _ _, rfl, hb⟩
      · obtain ⟨q, hq, hq1, hq2⟩ := ih h2
        exact ⟨q, List.mem_cons_of_mem _ hq, hq1, hq2⟩

/-- Deregistering an address that is not a live member of the room leaves the
registry unchanged. -/
theorem deregisterConn_not_mem {reg : Registry} {r : Uuid} {a : Addr}
    (h : a ∉ membersOf reg r) : deregisterConn reg r a = reg := by
  induction reg with
  | nil => rfl
  | cons q rest ih =>
    obtain ⟨k, l⟩ := q
    by_cases hk : k = r
    · subst hk
      have hl : a ∉ l := by simpa [membersOf, lookupRoom] using h
      have hfil : l.filter (fun b => b != a) = l := by
        refine List.filter_eq_self.mpr ?_
        intro b hb
        have hne : b ≠ a := fun e => hl (e ▸ hb)
        simpa using hne
      simp [deregisterConn, hfil]
    · have hrest : a ∉ membersOf rest r := by
        simpa [membersOf, lookupRoom, hk] using h
      simp [deregisterConn, hk, ih hrest]

/-- Looking up the deregistered room yields the filtered entry. -/
theorem lookupRoom_deregisterConn_self (reg : Registry) (r : Uuid) (a : Addr) :
    lookupRoom (deregisterConn reg r a) r =
      (lookupRoom reg r).map (List.filter (fun b => b != a)) := by
  induction reg with
  | nil => rfl
  | cons q rest ih =>
    obtain ⟨k, l⟩ := q
    by_cases hk : k = r <;> simp [deregisterConn, lookupRoom, hk, ih]

/-- After a deregister call the address is no longer a live member of the
room. -/
theorem not_mem_membersOf_deregisterConn (reg : Registry) (r : Uuid) (a : Addr) :
    a ∉ membersOf (deregisterConn reg r a) r := by
  unfold membersOf
  rw [lookupRoom_deregisterConn_self]
  cases lookupRoom reg r <;> simp [List.mem_filter]

/-- Claim C1: a broadcast of a decodable text message from a session joined to
room R sends the tagged ChatMessage to exactly the connections registered in
R at the time of the call (the sender possibly included, which the claim
permits), every delivered ChatMessage carries the text, every recipient
session of room R writes the text to its connection, and no connection
registered in a different room receives the fanout. -/
theorem broadcast_delivers_to_room_members
    (self : WebSocketSession) (reg : Registry) (bytes : List Nat) (text : String)
    (hdec : rustStringFromUtf8 bytes = some text) (hinv : regInvariant reg) :
    ((WebSocketSession.handleStream self reg (.ok (.text bytes))).sends.map Prod.fst =
        membersOf reg self.room_id)
  ∧ (∀ d ∈ (WebSocketSession.handleStream self reg (.ok (.text bytes))).sends,
        d.2 = ChatMessage.mk self.room_id self.username text)
  ∧ (∀ recv : WebSocketSession, recv.room_id = self.room_id →
        WebSocketSession.handleChat recv (ChatMessage.mk self.room_id self.username text) =
          [text])
  ∧ (∀ a : Addr, ∀ r2 : Uuid, r2 ≠ self.room_id → a ∈ membersOf reg r2 →
        a ∉ (WebSocketSession.handleStream self reg (.ok (.text bytes))).sends.map
          Prod.fst) := by
  rw [handleStream_sends_decoded self reg hdec]
  refine ⟨?_, ?_, ?_, ?_⟩
  · rw [List.map_map]
    have hcomp : (Prod.fst ∘ fun u : Addr =>
        (u, ChatMessage.mk self.room_id self.username text)) = id := rfl
    rw [hcomp, List.map_id]
  · intro d hd
    rcases List.mem_map.mp hd with ⟨u, _, rfl⟩
    rfl
  · intro recv hr
    simp [WebSocketSession.handleChat, hr]
  · intro a r2 hne ha hmem
    rw [List.map_map] at hmem
    have hcomp : (Prod.fst ∘ fun u : Addr =>
        (u, ChatMessage.mk self.room_id self.username text)) = id := rfl
    rw [hcomp, List.map_id] at hmem
    obtain ⟨l1, hl1, hal1⟩ := membersOf_entry hmem
    obtain ⟨l2, hl2, hal2⟩ := membersOf_entry ha
    exact hne (hinv (r2, l2) hl2 (self.room_id, l1) hl1 a hal2 hal1)

/-- Witness for C1 at a concrete registry with two rooms. -/
theorem broadcast_delivers_to_room_members_witness :
    (WebSocketSession.handleStream ⟨1, "alice"⟩ [(1, [10, 11]), (2, [12])]
        (.ok (.text [104, 105]))).sends.map Prod.fst =
      membersOf [(1, [10, 11]), (2, [12])] 1 :=
  (broadcast_delivers_to_room_members ⟨1, "alice"⟩ [(1, [10, 11]), (2, [12])]
    [104, 105] "hi" (by decide) (by decide)).1

/-- Claim C2 counterexample: create_room builds the Room with an empty users
set, so the creator is not a member of the returned Room at creation. -/
theorem create_room_creator_not_member :
    "alice" ∉ (create_room [] 0 "general" "alice").2.users := by decide

/-- Claim C2 (amended): the Room returned by create_room has an empty users
set; the creator is recorded only in the creator field, not as a member. -/
theorem create_room_users_empty (rooms : List (Uuid × Room)) (freshId : Uuid)
    (name creator : String) :
    (create_room rooms freshId name creator).2.users = []
  ∧ (create_room rooms freshId name creator).2.creator = creator
  ∧ (create_room rooms freshId name creator).2.id = freshId :=
  ⟨rfl, rfl, rfl⟩

/-- Claim C3 counterexample: with room 1 holding connections 10 (alice) and
11 (bob), alice sending the text frame "hi" (bytes 104 105) makes bob
receive exactly the bare frame "hi"; the sender display name "alice" occurs
nowhere in it, so the delivered frame carries no sender tag. -/
theorem relay_frame_lacks_sender_tag :
    framesTo (WebSocketSession.handleStream ⟨1, "alice"⟩ [(1, [10, 11])]
        (.ok (.text [104, 105]))).sends 11 ⟨1, "bob"⟩ = ["hi"]
  ∧ strOccurs "alice" "hi" = false := by decide

/-- Claim C3 (amended): a co-member of the sender room receives exactly the
verbatim message text as its frame; the sender display name travels in the
internal ChatMessage but is not part of the frame delivered to the peer. -/
theorem relay_delivers_text_without_sender_tag
    (sender recv : WebSocketSession) (b : Addr) (reg : Registry) (bytes : List Nat)
    (text : String) (hdec : rustStringFromUtf8 bytes = some text)
    (hroom : recv.room_id = sender.room_id)
    (hcount : (membersOf reg sender.room_id).count b = 1) :
    framesTo (WebSocketSession.handleStream sender reg (.ok (.text bytes))).sends b recv =
      [text]
  ∧ (b, ChatMessage.mk sender.room_id sender.username text) ∈
      (WebSocketSession.handleStream sender reg (.ok (.text bytes))).sends := by
  rw [handleStream_sends_decoded sender reg hdec]
  constructor
  · unfold framesTo
    rw [List.filter_map]
    have hfe : ((fun d : Addr × ChatMessage => d.1 == b) ∘
        (fun u : Addr => (u, ChatMessage.mk sender.room_id sender.username text))) =
        (fun u : Addr => u == b) := rfl
    rw [hfe, List.filter_beq, hcount]
    simp [WebSocketSession.handleChat, hroom]
  · have hb : b ∈ membersOf reg sender.room_id := by
      have := hcount
      by_contra hnb
      rw [List.count_eq_zero_of_not_mem hnb] at this
      omega
    exact List.mem_map.mpr ⟨b, hb, rfl⟩

/-- Witness for C3 (amended) at a concrete two-member room. -/
theorem relay_delivers_text_without_sender_tag_witness :
    framesTo (WebSocketSession.handleStream ⟨1, "alice"⟩ [(1, [10, 11])]
        (.ok (.text [104, 105]))).sends 11 ⟨1, "bob"⟩ = ["hi"] :=
  (relay_delivers_text_without_sender_tag ⟨1, "alice"⟩ ⟨1, "bob"⟩ 11 [(1, [10, 11])]
    [104, 105] "hi" (by decide) rfl (by decide)).1

/-- Claim C4 counterexample: on the undecodable text payload byte 255 the
stream handler does reply with the error text, but the closing flag stays
false: the session does not transition to Closing, the connection stays
open. -/
theorem invalid_utf8_does_not_close :
    (WebSocketSession.handleStream ⟨1, "alice"⟩ [(1, [10])]
        (.ok (.text [255]))).closing = false
  ∧ (WebSocketSession.handleStream ⟨1, "alice"⟩ [(1, [10])]
        (.ok (.text [255]))).replies = ["Invalid UTF-8 data received."] := by decide

/-- Claim C4 (amended): on a malformed (invalid UTF-8) text payload the
session replies with a client-visible error message on the same connection
and remains open: the registry is untouched, nothing is broadcast, and no
Closing transition is initiated. -/
theorem invalid_utf8_replies_and_stays_open
    (self : WebSocketSession) (reg : Registry) (bytes : List Nat)
    (hbad : rustStringFromUtf8 bytes = none) :
    WebSocketSession.handleStream self reg (.ok (.text bytes)) =
      { connections := reg, sends := [],
        replies := ["Invalid UTF-8 data received."], closing := false } := by
  simp [WebSocketSession.handleStream, hbad]

/-- Witness for C4 (amended) at the concrete undecodable payload byte 255. -/
theorem invalid_utf8_replies_and_stays_open_witness :
    WebSocketSession.handleStream ⟨1, "alice"⟩ [(1, [10])] (.ok (.text [255])) =
      { connections := [(1, [10])], sends := [],
        replies := ["Invalid UTF-8 data received."], closing := false } :=
  invalid_utf8_replies_and_stays_open ⟨1, "alice"⟩ [(1, [10])] [255] (by decide)

/-- Claim C5: each operation of a session preserves the invariant that a
connection address occurs in the entries of at most one room: a start of a
session with a fresh address, any stop, and the stream handler (broadcast)
all map a registry satisfying the invariant to a registry satisfying it. -/
theorem registry_single_room_invariant_preserved
    (self : WebSocketSession) (a : Addr) (reg : Registry)
    (hinv : regInvariant reg) :
    ((∀ q ∈ reg, a ∉ q.2) → regInvariant (WebSocketSession.started self a reg))
  ∧ regInvariant (WebSocketSession.stopped self a reg)
  ∧ ∀ msg : WsInbound,
      regInvariant (WebSocketSession.handleStream self reg msg).connections := by
  refine ⟨?_, ?_, ?_⟩
  · intro hfresh p1 hp1 p2 hp2 b hb1 hb2
    rcases mem_registerConn hp1 hb1 with ⟨q1, hq1, he1, hm1⟩ | ⟨hba, he1⟩
    · rcases mem_registerConn hp2 hb2 with ⟨q2, hq2, he2, hm2⟩ | ⟨hba, he2⟩
      · rw [← he1, ← he2]
        exact hinv q1 hq1 q2 hq2 b hm1 hm2
      · subst hba
        exact absurd hm1 (hfresh q1 hq1)
    · rcases mem_registerConn hp2 hb2 with ⟨q2, hq2, he2, hm2⟩ | ⟨hba2, he2⟩
      · subst hba
        exact absurd hm2 (hfresh q2 hq2)
      · rw [he1, he2]
  · intro p1 hp1 p2 hp2 b hb1 hb2
    obtain ⟨q1, hq1, he1, hm1⟩ := mem_deregisterConn hp1 hb1
    obtain ⟨q2, hq2, he2, hm2⟩ := mem_deregisterConn hp2 hb2
    rw [← he1, ← he2]
    exact hinv q1 hq1 q2 hq2 b hm1 hm2
  · intro msg
    rw [handleStream_connections]
    exact hinv

/-- Witness for C5: starting a fresh connection in a concrete registry. -/
theorem registry_single_room_invariant_preserved_witness :
    regInvariant (WebSocketSession.started ⟨1, "alice"⟩ 10 [(2, [11])]) :=
  (registry_single_room_invariant_preserved ⟨1, "alice"⟩ 10 [(2, [11])]
    (by decide)).1 (by decide)

/-- Claim C6: deregistering (the stopped hook) is an idempotent no-op when the
connection is not a live member of its room — including a room the
connection never registered in — and a second consecutive stop from any
registry leaves the registry exactly as after the first; no branch errors. -/
theorem deregister_idempotent_noop (self : WebSocketSession) (a : Addr)
    (reg : Registry) (habs : a ∉ membersOf reg self.room_id) :
    WebSocketSession.stopped self a reg = reg
  ∧ ∀ reg2 : Registry,
      WebSocketSession.stopped self a (WebSocketSession.stopped self a reg2) =
        WebSocketSession.stopped self a reg2 := by
  constructor
  · exact deregisterConn_not_mem habs
  · intro reg2
    exact deregisterConn_not_mem (not_mem_membersOf_deregisterConn reg2 self.room_id a)

/-- Witness for C6: deregistering address 10 from room 1 where it is absent
leaves the concrete registry unchanged. -/
theorem deregister_idempotent_noop_witness :
    WebSocketSession.stopped ⟨1, "bob"⟩ 10 [(1, [11]), (2, [10])] =
      [(1, [11]), (2, [10])] :=
  (deregister_idempotent_noop ⟨1, "bob"⟩ 10 [(1, [11]), (2, [10])] (by decide)).1

/-- Claim C7: when the roomId query parameter is missing or rejected by the
uuid parse, websocket_handler answers the bad-request error and returns no
session at all, so no default room is ever substituted. -/
theorem websocket_handler_rejects_bad_room (params : List (String × String))
    (hbad : (getQueryParam params "roomId").bind uuidParseStr = none) :
    websocket_handler (some params) = Except.error "Missing or invalid roomId"
  ∧ ∀ s : WebSocketSession, websocket_handler (some params) ≠ Except.ok s := by
  have h : websocket_handler (some params) =
      Except.error "Missing or invalid roomId" := by
    simp [websocket_handler, hbad]
  exact ⟨h, fun s hs => by rw [h] at hs; cases hs⟩

/-- Witness for C7: a query string with no roomId parameter. -/
theorem websocket_handler_rejects_bad_room_witness :
    websocket_handler (some [("username", "alice")]) =
      Except.error "Missing or invalid roomId" :=
  (websocket_handler_rejects_bad_room [("username", "alice")] (by decide)).1

/-- Claim C8: a broadcast of a decodable text into a room with no registry
entry, or an empty entry, is a silent no-op: no delivery, no reply to the
sender, no close, registry unchanged. -/
theorem broadcast_empty_room_silent_noop
    (self : WebSocketSession) (reg : Registry) (bytes : List Nat) (text : String)
    (hdec : rustStringFromUtf8 bytes = some text)
    (hempty : lookupRoom reg self.room_id = none ∨
      lookupRoom reg self.room_id = some []) :
    WebSocketSession.handleStream self reg (.ok (.text bytes)) =
      { connections := reg, sends := [], replies := [], closing := false } := by
  rcases hempty with h | h <;> simp [WebSocketSession.handleStream, hdec, h]

/-- Witness for C8: broadcasting into an empty registry. -/
theorem broadcast_empty_room_silent_noop_witness :
    WebSocketSession.handleStream ⟨1, "alice"⟩ [] (.ok (.text [104, 105])) =
      { connections := [], sends := [], replies := [], closing := false } :=
  broadcast_empty_room_silent_noop ⟨1, "alice"⟩ [] [104, 105] "hi" (by decide)
    (Or.inl rfl)

/-- Claim C9: a registered sender is itself among the fanout recipients, and
the ChatMessage room filter of its own handler passes, so the sender
receives an echo of its own message. -/
theorem sender_receives_own_echo
    (self : WebSocketSession) (selfAddr : Addr) (reg : Registry) (bytes : List Nat)
    (text : String) (hdec : rustStringFromUtf8 bytes = some text)
    (hmem : selfAddr ∈ membersOf reg self.room_id) :
    (selfAddr, ChatMessage.mk self.room_id self.username text) ∈
      (WebSocketSession.handleStream self reg (.ok (.text bytes))).sends
  ∧ WebSocketSession.handleChat self (ChatMessage.mk self.room_id self.username text) =
      [text] := by
  constructor
  · rw [handleStream_sends_decoded self reg hdec]
    exact List.mem_map.mpr ⟨selfAddr, hmem, rfl⟩
  · simp [WebSocketSession.handleChat]

/-- Witness for C9: the sender at address 10 of room 1 receives its own
message. -/
theorem sender_receives_own_echo_witness :
    (10, ChatMessage.mk 1 "alice" "hi") ∈
      (WebSocketSession.handleStream ⟨1, "alice"⟩ [(1, [10, 11])]
        (.ok (.text [104, 105]))).sends :=
  (sender_receives_own_echo ⟨1, "alice"⟩ 10 [(1, [10, 11])] [104, 105] "hi"
    (by decide) (by decide)).1

/-- Claim C10: the stream handler (the broadcast path) never mutates the
room-to-connections registry: on every inbound frame the connections map
after the call equals the map before it. -/
theorem broadcast_never_mutates_registry (self : WebSocketSession) (reg : Registry)
    (msg : WsInbound) :
    (WebSocketSession.handleStream self reg msg).connections = reg :=
  handleStream_connections self reg msg
